import Mathlib

/-!
Verification of the spectrophotometer firmware (src/spectrophotometer.ino)
against its natural-language specification.

The firmware's C++ is shallowly embedded below:
* floats are modelled as real numbers (`ℝ`), rationals (`ℚ`) where the
  computation is exact;
* C `int`/`long` arithmetic is modelled on `ℤ`, with `Int.tdiv` for the
  C quotient (truncation toward zero); device-produced values never leave
  their machine range, but the host-controlled SetDaqDelay path can
  overflow, so the 32-bit `long` accumulation of `atol` and the
  `long`-to-16-bit-`int` narrowing of the `daqDelay` store are modelled
  explicitly as two's-complement wraps (`wrap32`, `wrap16`);
* `millis()` timestamps are modelled as `ℕ` (monotone clock, no wraparound);
* interrupt handlers and the control loop become explicit state-transition
  functions; external inputs (ADC sample, serial byte, payload characters,
  interrupt times, channel writability) become function arguments.
-/

namespace Spectro

/-! ## Constants (globals of the sketch) -/

/-- Communication command code `HANDSHAKE = 0`. -/
def HANDSHAKE : ℤ := 0

/-- Communication command code -/
def VOLTAGE_REQUEST : ℤ := 1

/-- Communication command code -/
def ON_REQUEST : ℤ := 2

/-- Communication command code -/
def STREAM : ℤ := 3

/-- Communication command code -/
def READ_DAQ_DELAY : ℤ := 4

/-- `int maxPhotoRaw = 75;` -/
def maxPhotoRaw : ℤ := 75

/-- `int minPhotoRaw = -1;` -/
def minPhotoRaw : ℤ := -1

/-- `float photodiodeEmptyNormalized = 0.83;` -/
noncomputable def photodiodeEmptyNormalized : ℝ := 83 / 100

/-- `float absorbanceScaling = 0.96;` -/
noncomputable def absorbanceScaling : ℝ := 96 / 100

/-- `float absorbanceOffset = -0.01;` -/
noncomputable def absorbanceOffset : ℝ := -(1 / 100)

/-- `float absorbanceBlank = -0.104;` (initial value of the calibration blank) -/
noncomputable def absorbanceBlankInit : ℝ := -(104 / 1000)

/-- The clamping epsilon `0.0001` used in `getAbsorbance`. -/
noncomputable def absorbanceEps : ℝ := 1 / 10000

/-! ## PhotometricEngine -/

/-- Arduino's integer `map` function:
`(x - in_min) * (out_max - out_min) / (in_max - in_min) + out_min`,
with C `long` division (truncation toward zero, `Int.div`). -/
def arduinoMap (x inMin inMax outMin outMax : ℤ) : ℤ :=
  Int.tdiv ((x - inMin) * (outMax - outMin)) (inMax - inMin) + outMin

/-- The mapped photodiode value of `measureLight`:
`map((int)photodiodeRaw, minPhotoRaw, maxPhotoRaw, 0, maxPhotoRaw)`. -/
def photodiodeMapped (raw : ℤ) : ℤ :=
  arduinoMap raw minPhotoRaw maxPhotoRaw 0 maxPhotoRaw

/-- `measureLight()`: maps the raw ADC sample and normalizes by `maxPhotoRaw`:
`(float)photodiodeMapped / maxPhotoRaw`. The raw sample, read from the ADC
collaborator, is the argument. -/
def measureLight (raw : ℤ) : ℚ :=
  (photodiodeMapped raw : ℚ) / (maxPhotoRaw : ℚ)

/-- `getAbsorbance(measurement)`: clamps the measurement below at `0.0001`
(`if (measurement < 0.0001) measurement = 0.0001;`) and returns
`absorbanceScaling * (log10(photodiodeEmptyNormalized / measurement) - absorbanceBlank) + absorbanceOffset`.
The global `absorbanceBlank` is passed explicitly. -/
noncomputable def getAbsorbance (blank m : ℝ) : ℝ :=
  absorbanceScaling *
      (Real.logb 10
          (photodiodeEmptyNormalized / (if m < absorbanceEps then absorbanceEps else m)) -
        blank) +
    absorbanceOffset

/-- `calibration()`: sets `absorbanceBlank = 0.0`, then
`absorbanceBlank = getAbsorbance(measureLight())`; the inner call therefore
reads a zero blank. Returns the new blank, the normalized measurement `m`
being the argument. -/
noncomputable def calibration (m : ℝ) : ℝ :=
  getAbsorbance 0 m

/-! ## ButtonEventSource: interrupt handlers and debounce -/

/-- State touched by `cbEject`: the handler's static `lastInterruptTime`
and the shared `volatile bool ejectRequested`. -/
structure EjectState where
  lastInterruptTime : ℕ
  ejectRequested : Bool
deriving DecidableEq

/-- `cbEject()` at interrupt time `t`: if `t - lastInterruptTime > 200`
it sets `ejectRequested = true`; in every case it then stores
`lastInterruptTime = t`. -/
def cbEject (s : EjectState) (t : ℕ) : EjectState :=
  { lastInterruptTime := t,
    ejectRequested := if t - s.lastInterruptTime > 200 then true else s.ejectRequested }

/-- State touched by `cbRecord`: its static `lastInterruptTime`, whether the
interrupt is currently attached, `volatile bool waitingForRelease`, and
`pressStartTime`. -/
structure RecordState where
  lastInterruptTime : ℕ
  attached : Bool
  waitingForRelease : Bool
  pressStartTime : ℕ
deriving DecidableEq

/-- `cbRecord()` at interrupt time `t`: if `t - lastInterruptTime > 200` it
detaches its own interrupt, records `pressStartTime = millis()` and sets
`waitingForRelease = true`; in every case it then stores
`lastInterruptTime = t`. -/
def cbRecord (s : RecordState) (t : ℕ) : RecordState :=
  if t - s.lastInterruptTime > 200 then
    { lastInterruptTime := t, attached := false, waitingForRelease := true,
      pressStartTime := t }
  else
    { s with lastInterruptTime := t }

/-- The number of interrupt triggers, among a list of trigger times, that the
debounce check `t - lastInterruptTime > 200` accepts (and which therefore
register a logical event), starting from stored timestamp `last`. The
timestamp is updated to `t` after every trigger, accepted or not, exactly as
both handlers do. -/
def countAccepted : ℕ → List ℕ → ℕ
  | _, [] => 0
  | last, t :: ts => (if t - last > 200 then 1 else 0) + countAccepted t ts

/-! ## ControlLoop: eject handling -/

/-- State touched by the loop's eject branch: `elevatorUp` and the shared
`volatile bool ejectRequested`. -/
structure ElevState where
  elevatorUp : Bool
  ejectRequested : Bool
deriving DecidableEq

/-- The effect of an accepted `cbEject` interrupt on the loop-visible state:
`ejectRequested = true`. -/
def requestEject (s : ElevState) : ElevState :=
  { s with ejectRequested := true }

/-- One pass of the `loop()` eject branch: if `ejectRequested` is set, run the
blocking `stepMotor(±elevatorRiseTicks)` call and the LCD updates — during
which `irqs` further accepted eject interrupts may fire, each setting
`ejectRequested = true` — then execute `elevatorUp = not elevatorUp;` and
`ejectRequested = false;` in that order. If the flag is clear, do nothing. -/
def handleEject (s : ElevState) (irqs : ℕ) : ElevState :=
  if s.ejectRequested then
    let s1 := requestEject^[irqs] s
    let s2 := { s1 with elevatorUp := !s1.elevatorUp }
    { s2 with ejectRequested := false }
  else s

/-! ## SerialProtocolHandler -/

/-- A serial write emitted by the firmware: the handshake acknowledgement
line, or a report line `<timestamp_ms>,<absorbance>` (sent by `sendData`). -/
inductive Reply where
  | handshakeAck : Reply
  | report : ℕ → ℝ → Reply

/-- The device state the serial command dispatch can touch. -/
structure DevState where
  daqMode : ℤ
  daqDelay : ℤ
  absorbanceBlank : ℝ
  timeOfLastDAQ : ℕ

/-- Whether a character is an ASCII decimal digit, per C `isdigit`. -/
def isDigitCh (c : Char) : Bool :=
  decide (48 ≤ c.toNat) && decide (c.toNat ≤ 57)

/-- Whether a character is whitespace, per C `isspace`
(space, `\t`, `\n`, vertical tab, form feed, `\r`). -/
def isSpaceCh (c : Char) : Bool :=
  decide (c.toNat = 32) || (decide (9 ≤ c.toNat) && decide (c.toNat ≤ 13))

/-- Two's-complement wrap-around of a 32-bit signed `long`
(avr-libc `atol` accumulates in one). -/
def wrap32 (x : ℤ) : ℤ :=
  (x + 2 ^ 31) % 2 ^ 32 - 2 ^ 31

/-- Two's-complement narrowing to a 16-bit signed `int`: the type of
`daqDelay` on the AVR target, so `daqDelay = daqDelayStr.toInt()` truncates
the 32-bit `long` to 16 bits. -/
def wrap16 (x : ℤ) : ℤ :=
  (x + 2 ^ 15) % 2 ^ 16 - 2 ^ 15

/-- The digit-accumulation loop of C `atol`: consume leading digits,
accumulating `acc * 10 + digit` in a 32-bit signed `long` (each step wraps);
stop at the first non-digit. -/
def parseDigits : List Char → ℤ → ℤ
  | [], acc => acc
  | c :: cs, acc =>
    if isDigitCh c then parseDigits cs (wrap32 (acc * 10 + ((c.toNat : ℤ) - 48))) else acc

/-- The mathematical (unbounded) value of the same digit run, used to state
when the 32-bit accumulation does not wrap. -/
def parseDigitsPlain : List Char → ℤ → ℤ
  | [], acc => acc
  | c :: cs, acc =>
    if isDigitCh c then parseDigitsPlain cs (acc * 10 + ((c.toNat : ℤ) - 48)) else acc

/-- Drop the leading whitespace, as C `atol` does before the sign. -/
def skipSpaces : List Char → List Char
  | [] => []
  | c :: cs => if isSpaceCh c then skipSpaces cs else c :: cs

/-- Arduino `String::toInt` = avr-libc `atol`: skip leading whitespace, read
an optional `'-'` or `'+'` sign, then accumulate decimal digits up to the
first non-digit in a 32-bit signed `long`; a string with no leading digits
yields 0, and negation also happens in the 32-bit `long`. -/
def stringToInt (cs : List Char) : ℤ :=
  match skipSpaces cs with
  | [] => 0
  | c :: rest =>
    if c = '-' then wrap32 (-(parseDigits rest 0))
    else if c = '+' then parseDigits rest 0
    else parseDigits (c :: rest) 0

/-- The `switch(inByte)` dispatch of `loop()` on one received command byte.
External inputs are explicit: `payload` is the serial text
`Serial.readStringUntil('x')` would return (the bytes before the sentinel),
`raw` the ADC sample a triggered measurement would read, `now` the `millis()`
value, `writable` the `Serial.availableForWrite()` result. Returns the new
device state and the serial lines written. Command codes outside the five
`case`s fall through the `switch` with no effect. -/
noncomputable def handleCommand (inByte : ℤ) (payload : List Char) (raw : ℤ)
    (now : ℕ) (writable : Bool) (s : DevState) : DevState × List Reply :=
  if inByte = VOLTAGE_REQUEST then
    ({ s with timeOfLastDAQ := now },
      if writable then
        [Reply.report now (getAbsorbance s.absorbanceBlank ((measureLight raw : ℚ) : ℝ))]
      else [])
  else if inByte = ON_REQUEST then ({ s with daqMode := ON_REQUEST }, [])
  else if inByte = STREAM then ({ s with daqMode := STREAM }, [])
  else if inByte = READ_DAQ_DELAY then
    ({ s with daqDelay := wrap16 (stringToInt payload) }, [])
  else if inByte = HANDSHAKE then
    (s, if writable then [Reply.handshakeAck] else [])
  else (s, [])

/-! ## Theorems -/

/-- C1: for every reading `m`, `getAbsorbance` returns
`scaling * (log10(referenceNormalized / max m 1e-4) - blank) + offset`:
the reading is clamped below to the epsilon `1e-4` and the Beer-Lambert
formula applied; the function is total, so no error is raised for near-zero
readings. -/
theorem getAbsorbance_clamped_formula (blank m : ℝ) :
    getAbsorbance blank m =
      absorbanceScaling *
          (Real.logb 10 (photodiodeEmptyNormalized / max m absorbanceEps) - blank) +
        absorbanceOffset := by
  unfold getAbsorbance
  rcases lt_or_le m absorbanceEps with h | h
  · rw [if_pos h, max_eq_right h.le]
  · rw [if_neg (not_lt.mpr h), max_eq_left h]

lemma photodiodeMapped_clamp (r : ℤ) (h1 : -1 ≤ r) (h2 : r ≤ 75) :
    photodiodeMapped r = min (max r 0) 75 := by
  interval_cases r <;> decide

/-- C2: for every raw ADC sample `r` with `minPhotoRaw ≤ r ≤ maxPhotoRaw`,
the normalized reading of `measureLight` equals `clamp(r, 0, 75) / 75` and
lies in `[0, 1]`. -/
theorem measureLight_in_range (r : ℤ) (h1 : minPhotoRaw ≤ r) (h2 : r ≤ maxPhotoRaw) :
    measureLight r = ((min (max r 0) 75 : ℤ) : ℚ) / 75 ∧
      0 ≤ measureLight r ∧ measureLight r ≤ 1 := by
  have h1' : -1 ≤ r := h1
  have h2' : r ≤ 75 := h2
  have hm : photodiodeMapped r = min (max r 0) 75 := photodiodeMapped_clamp r h1' h2'
  have hlow : (0 : ℤ) ≤ min (max r 0) 75 :=
    le_min (le_max_right r 0) (by norm_num)
  have hhigh : min (max r 0) 75 ≤ (75 : ℤ) := min_le_right _ _
  have heq : measureLight r = ((min (max r 0) 75 : ℤ) : ℚ) / 75 := by
    rw [measureLight, hm, maxPhotoRaw]; norm_num
  refine ⟨heq, ?_, ?_⟩
  · rw [heq]
    have : (0 : ℚ) ≤ ((min (max r 0) 75 : ℤ) : ℚ) := by exact_mod_cast hlow
    positivity
  · rw [heq, div_le_one (by norm_num)]
    exact_mod_cast hhigh

/-- Witness for C2 at the concrete sample `r = 42`. -/
theorem measureLight_in_range_witness :
    measureLight 42 = ((min (max (42 : ℤ) 0) 75 : ℤ) : ℚ) / 75 ∧
      0 ≤ measureLight 42 ∧ measureLight 42 ≤ 1 :=
  measureLight_in_range 42 (by decide) (by decide)

/-- C6 counterexample: the raw sample `r = -3` is strictly below the
configured minimum `minPhotoRaw = -1`, yet its normalized reading is not 0:
Arduino `map` performs no clamping, so `map(-3,-1,75,0,75) = (-2*75) tdiv 76 = -1`
and the normalized reading is `-1/75`. -/
theorem measureLight_below_min_not_zero :
    (-3 : ℤ) < minPhotoRaw ∧ measureLight (-3) ≠ 0 := by
  refine ⟨by decide, ?_⟩
  have h : photodiodeMapped (-3) = -1 := by decide
  rw [measureLight, h, maxPhotoRaw]
  norm_num

/-- C6 amended: values below the configured minimum are NOT clamped to 0.
For `r = -2` the mapped value happens to truncate to 0, but for every
`r ≤ -3` the mapped value is negative and the normalized reading is
strictly negative. -/
theorem measureLight_below_min_negative :
    measureLight (-2) = 0 ∧ ∀ r : ℤ, r ≤ -3 → measureLight r < 0 := by
  constructor
  · have h : photodiodeMapped (-2) = 0 := by decide
    rw [measureLight, h, maxPhotoRaw]
    norm_num
  · intro r hr
    have hmap : photodiodeMapped r = -(((-(r + 1)) * 75).tdiv 76) := by
      have e1 : r - -1 = r + 1 := by ring
      have e2 : (75 : ℤ) - 0 = 75 := by norm_num
      have e3 : (75 : ℤ) - -1 = 76 := by norm_num
      rw [photodiodeMapped, arduinoMap, minPhotoRaw, maxPhotoRaw, e1, e2, e3,
        show (r + 1) * 75 = -((-(r + 1)) * 75) by ring, Int.neg_tdiv]
      omega
    have hc : (150 : ℤ) ≤ (-(r + 1)) * 75 := by nlinarith
    have hpos : (1 : ℤ) ≤ ((-(r + 1)) * 75).tdiv 76 := by
      rw [Int.tdiv_eq_ediv (by linarith) (by norm_num)]
      rw [Int.le_ediv_iff_mul_le (by norm_num)]
      linarith
    have hneg : photodiodeMapped r ≤ -1 := by rw [hmap]; linarith
    rw [measureLight, maxPhotoRaw]
    have hq : ((photodiodeMapped r : ℤ) : ℚ) < 0 := by
      exact_mod_cast hneg.trans_lt (by norm_num)
    exact div_neg_of_neg_of_pos hq (by norm_num)

/-- Witness for C6's amended claim at the concrete sample `r = -10`. -/
theorem measureLight_below_min_negative_witness : measureLight (-10) < 0 :=
  measureLight_below_min_negative.2 (-10) (by decide)

lemma getAbsorbance_calibration_eq (m : ℝ) :
    getAbsorbance (calibration m) m =
      absorbanceScaling * (1 - absorbanceScaling) *
          Real.logb 10
            (photodiodeEmptyNormalized / (if m < absorbanceEps then absorbanceEps else m)) +
        (1 - absorbanceScaling) * absorbanceOffset := by
  unfold calibration getAbsorbance
  ring

lemma logb_ten_thousand : Real.logb 10 1000 = 3 := by
  rw [show (1000 : ℝ) = 10 ^ (3 : ℕ) by norm_num, Real.logb_pow,
    Real.logb_self_eq_one (by norm_num)]
  norm_num

/-- C3 counterexample: the device state with any blank and a clamped reading
`m = 1e-4` refutes the claim: after `calibration()` the absorbance of the same
reading differs from `absorbanceOffset` by more than `1/10`, far outside any
numerical tolerance (the stored blank is the full previous absorbance —
including scaling and offset — not the bare logarithm, so re-measuring does
not return the offset). -/
theorem calibration_then_measure_not_offset :
    getAbsorbance (calibration absorbanceEps) absorbanceEps - absorbanceOffset > 1 / 10 := by
  rw [getAbsorbance_calibration_eq]
  rw [if_neg (lt_irrefl absorbanceEps)]
  have hq : photodiodeEmptyNormalized / absorbanceEps = 8300 := by
    rw [photodiodeEmptyNormalized, absorbanceEps]; norm_num
  rw [hq]
  have hlog : (3 : ℝ) ≤ Real.logb 10 8300 := by
    rw [← logb_ten_thousand]
    exact Real.logb_le_logb_of_le (by norm_num) (by norm_num) (by norm_num)
  rw [absorbanceScaling, absorbanceOffset]
  nlinarith

/-- C3 amended: running `calibration()` on reading `m` and then immediately
computing the absorbance of the same reading yields
`scaling * (1 - scaling) * log10(referenceNormalized / m') + (1 - scaling) * offset`
(`m'` the clamped reading) — not the offset constant: the blank stores the
complete absorbance of the calibration sample, so only a `(1 - scaling)`
fraction of it survives. -/
theorem calibration_then_measure_formula (m : ℝ) :
    getAbsorbance (calibration m) m =
      absorbanceScaling * (1 - absorbanceScaling) *
          Real.logb 10
            (photodiodeEmptyNormalized / (if m < absorbanceEps then absorbanceEps else m)) +
        (1 - absorbanceScaling) * absorbanceOffset :=
  getAbsorbance_calibration_eq m

/-- C8: with any fixed blank, the absorbance is antitone in the reading:
for `0 < m1 < m2`, `getAbsorbance blank m1 ≥ getAbsorbance blank m2`
(higher transmittance gives lower absorbance; constant across the clamped
region below `1e-4`, strictly decreasing above it). -/
theorem getAbsorbance_antitone (blank m1 m2 : ℝ) (h0 : 0 < m1) (h12 : m1 < m2) :
    getAbsorbance blank m2 ≤ getAbsorbance blank m1 := by
  unfold getAbsorbance
  have heps : (0 : ℝ) < absorbanceEps := by rw [absorbanceEps]; norm_num
  have hc1pos : 0 < (if m1 < absorbanceEps then absorbanceEps else m1) := by
    split_ifs with h
    · exact heps
    · exact h0
  have hc2pos : 0 < (if m2 < absorbanceEps then absorbanceEps else m2) := by
    split_ifs with h
    · exact heps
    · linarith
  have hc12 : (if m1 < absorbanceEps then absorbanceEps else m1) ≤
      (if m2 < absorbanceEps then absorbanceEps else m2) := by
    split_ifs with h1 h2
    · exact le_refl _
    · exact le_of_not_lt h2
    · linarith
    · exact h12.le
  have href : (0 : ℝ) < photodiodeEmptyNormalized := by
    rw [photodiodeEmptyNormalized]; norm_num
  have hdiv : photodiodeEmptyNormalized / (if m2 < absorbanceEps then absorbanceEps else m2) ≤
      photodiodeEmptyNormalized / (if m1 < absorbanceEps then absorbanceEps else m1) :=
    div_le_div_of_nonneg_left href.le hc1pos hc12
  have hlog := Real.logb_le_logb_of_le (b := 10) (by norm_num)
    (div_pos href hc2pos) hdiv
  have hs : (0 : ℝ) ≤ absorbanceScaling := by rw [absorbanceScaling]; norm_num
  nlinarith

/-- Witness for C8 at the concrete pair `m1 = 1/2 < m2 = 7/10`, blank 0. -/
theorem getAbsorbance_antitone_witness :
    getAbsorbance 0 (7 / 10) ≤ getAbsorbance 0 (1 / 2) :=
  getAbsorbance_antitone 0 (1 / 2) (7 / 10) (by norm_num) (by norm_num)

/-- C4 counterexample: two eject triggers spaced exactly 200 ms apart — at
300 ms and 500 ms, the first accepted against the handler's initial timestamp
0 — do not both register: the debounce test `t - last > 200` is strict, so
the second is rejected and only one logical event results, refuting "spaced
at least 200 ms apart both register". -/
theorem debounce_exactly_200_one_event :
    (500 : ℕ) - 300 ≥ 200 ∧ countAccepted 0 [300, 500] = 1 := by decide

/-- C4 amended: for two triggers on the same button source, the first
accepted, the second collapses into the first when it arrives within 200 ms
(precisely: at most 200 ms after it), and both register when they are spaced
strictly more than 200 ms apart. -/
theorem debounce_two_triggers (last t1 t2 : ℕ) (h1 : t1 - last > 200) :
    (t2 - t1 ≤ 200 → countAccepted last [t1, t2] = 1) ∧
      (t2 - t1 > 200 → countAccepted last [t1, t2] = 2) := by
  have e : countAccepted last [t1, t2] =
      (if t1 - last > 200 then 1 else 0) + ((if t2 - t1 > 200 then 1 else 0) + 0) := rfl
  rw [e, if_pos h1]
  constructor <;> intro h
  · rw [if_neg (by omega)]
  · rw [if_pos h]

/-- Witness for C4's amended claim at `last = 0`, triggers 300 and 450. -/
theorem debounce_two_triggers_witness : countAccepted 0 [300, 450] = 1 :=
  (debounce_two_triggers 0 300 450 (by decide)).1 (by decide)

lemma requestEject_iterate_elevatorUp (k : ℕ) (s : ElevState) :
    (requestEject^[k] s).elevatorUp = s.elevatorUp := by
  induction k generalizing s with
  | zero => rfl
  | succ n ih =>
    rw [Function.iterate_succ_apply]
    exact ih (requestEject s)

lemma handleEject_elevatorUp (s : ElevState) (k : ℕ) (h : s.ejectRequested = true) :
    (handleEject s k).elevatorUp = !s.elevatorUp := by
  simp [handleEject, h, requestEject_iterate_elevatorUp]

lemma handleEject_flag_clear (s : ElevState) (k : ℕ) (h : s.ejectRequested = true) :
    (handleEject s k).ejectRequested = false := by
  simp [handleEject, h]

/-- C5: a completed eject action toggles `elevatorUp` exactly once and leaves
`ejectRequested` clear, no matter how many eject interrupts (`k`) fire while
the blocking motor action is in progress — they set a flag that the loop
clears after the toggle — and a subsequent completed eject (triggered by a
new accepted interrupt, again with `k2` extra interrupts during the action)
toggles it back, so successive completed ejects alternate raised/lowered. -/
theorem handleEject_single_toggle (s : ElevState) (k k2 : ℕ)
    (h : s.ejectRequested = true) :
    (handleEject s k).elevatorUp = !s.elevatorUp ∧
      (handleEject s k).ejectRequested = false ∧
      (handleEject (requestEject (handleEject s k)) k2).elevatorUp = s.elevatorUp := by
  refine ⟨handleEject_elevatorUp s k h, handleEject_flag_clear s k h, ?_⟩
  have h3 : (requestEject (handleEject s k)).ejectRequested = true := rfl
  have h4 : (requestEject (handleEject s k)).elevatorUp = !s.elevatorUp := by
    simpa [requestEject] using handleEject_elevatorUp s k h
  rw [handleEject_elevatorUp _ k2 h3, h4, Bool.not_not]

/-- Witness for C5 with the elevator raised, the flag set, and 3 and 0
interrupts during the two motor actions. -/
theorem handleEject_single_toggle_witness :
    (handleEject ⟨true, true⟩ 3).elevatorUp = !true ∧
      (handleEject ⟨true, true⟩ 3).ejectRequested = false ∧
      (handleEject (requestEject (handleEject ⟨true, true⟩ 3)) 0).elevatorUp = true :=
  handleEject_single_toggle ⟨true, true⟩ 3 0 rfl

lemma countAccepted_chain_zero :
    ∀ (ts : List ℕ) (last : ℕ),
      List.Chain (fun a b => b ≤ a + 200) last ts → countAccepted last ts = 0
  | [], _, _ => rfl
  | t :: ts, last, h => by
    cases h with
    | cons hle hch =>
      show (if t - last > 200 then 1 else 0) + countAccepted t ts = 0
      rw [if_neg (by omega), countAccepted_chain_zero ts t hch]

/-- C10: both handlers store `lastInterruptTime = t` on every edge, accepted
or rejected by the debounce window; consequently, for a run of falling edges
`t :: ts` in which each edge arrives at most 200 ms after the previous one,
the logical events registered by the whole run are exactly those of its first
edge — no event after the first accepted one, no matter how long the total
elapsed time of the run is. -/
theorem debounce_run_collapses (s : EjectState) (r : RecordState)
    (last t : ℕ) (ts : List ℕ)
    (hch : List.Chain (fun a b => b ≤ a + 200) t ts) :
    (cbEject s t).lastInterruptTime = t ∧
      (cbRecord r t).lastInterruptTime = t ∧
      countAccepted last (t :: ts) = countAccepted last [t] := by
  refine ⟨rfl, ?_, ?_⟩
  · unfold cbRecord
    split_ifs <;> rfl
  · show (if t - last > 200 then 1 else 0) + countAccepted t ts =
      (if t - last > 200 then 1 else 0) + 0
    rw [countAccepted_chain_zero ts t hch]

/-- Witness for C10: a chattering run 300, 400, 500, 650 (gaps 100, 100, 150)
spans 350 ms in total yet registers exactly the one event of its first edge. -/
theorem debounce_run_collapses_witness :
    (cbEject ⟨0, false⟩ 300).lastInterruptTime = 300 ∧
      (cbRecord ⟨0, true, false, 0⟩ 300).lastInterruptTime = 300 ∧
      countAccepted 0 [300, 400, 500, 650] = countAccepted 0 [300] :=
  debounce_run_collapses ⟨0, false⟩ ⟨0, true, false, 0⟩ 0 300 [400, 500, 650]
    (.cons (by norm_num) (.cons (by norm_num) (.cons (by norm_num) .nil)))

/-- C7: a command byte outside the five defined codes 0..4 falls through the
`switch` with no matching `case`: the device state — `daqMode`, `daqDelay`,
`absorbanceBlank` (and `timeOfLastDAQ`) — is unchanged and no serial line is
written; no error is surfaced. -/
theorem handleCommand_unknown_noop (b : ℤ) (payload : List Char) (raw : ℤ)
    (now : ℕ) (w : Bool) (s : DevState)
    (h : ¬(b = HANDSHAKE ∨ b = VOLTAGE_REQUEST ∨ b = ON_REQUEST ∨ b = STREAM ∨
      b = READ_DAQ_DELAY)) :
    handleCommand b payload raw now w s = (s, []) := by
  push_neg at h
  obtain ⟨h0, h1, h2, h3, h4⟩ := h
  unfold handleCommand
  rw [if_neg h1, if_neg h2, if_neg h3, if_neg h4, if_neg h0]

/-- Witness for C7 at the unknown command byte 99 and a concrete state. -/
theorem handleCommand_unknown_noop_witness :
    handleCommand 99 [] 0 0 true ⟨ON_REQUEST, 100, absorbanceBlankInit, 0⟩ =
      (⟨ON_REQUEST, 100, absorbanceBlankInit, 0⟩, []) :=
  handleCommand_unknown_noop 99 [] 0 0 true _ (by decide)

/-- C9 counterexample: two SetDaqDelay payloads (the serial text before the
sentinel `'x'`) store a negative `daqDelay`: "-5" stores `-5` because
`String::toInt` is avr-libc `atol`, which accepts a leading minus sign, and
the all-digit payload "99999" stores `-31073` because `atol`'s 32-bit value
99999 is narrowed into the 16-bit `int daqDelay`. -/
theorem setDaqDelay_negative_payload :
    (handleCommand READ_DAQ_DELAY ['-', '5'] 0 0 true
        ⟨ON_REQUEST, 100, absorbanceBlankInit, 0⟩).1.daqDelay < 0 ∧
      (handleCommand READ_DAQ_DELAY ['9', '9', '9', '9', '9'] 0 0 true
        ⟨ON_REQUEST, 100, absorbanceBlankInit, 0⟩).1.daqDelay = -31073 := by
  have e1 : (handleCommand READ_DAQ_DELAY ['-', '5'] 0 0 true
      ⟨ON_REQUEST, 100, absorbanceBlankInit, 0⟩).1.daqDelay =
        wrap16 (stringToInt ['-', '5']) := by
    unfold handleCommand
    norm_num [READ_DAQ_DELAY, VOLTAGE_REQUEST, ON_REQUEST, STREAM]
  have e2 : (handleCommand READ_DAQ_DELAY ['9', '9', '9', '9', '9'] 0 0 true
      ⟨ON_REQUEST, 100, absorbanceBlankInit, 0⟩).1.daqDelay =
        wrap16 (stringToInt ['9', '9', '9', '9', '9']) := by
    unfold handleCommand
    norm_num [READ_DAQ_DELAY, VOLTAGE_REQUEST, ON_REQUEST, STREAM]
  rw [e1, e2]
  constructor <;> decide

lemma parseDigitsPlain_le :
    ∀ (cs : List Char) (acc : ℤ), 0 ≤ acc → acc ≤ parseDigitsPlain cs acc
  | [], _, _ => le_refl _
  | c :: cs, acc, h => by
    unfold parseDigitsPlain
    split_ifs with hd
    · have hc : (48 : ℕ) ≤ c.toNat ∧ c.toNat ≤ 57 := by
        simpa [isDigitCh] using hd
      have h48 : (48 : ℤ) ≤ (c.toNat : ℤ) := by exact_mod_cast hc.1
      have h9 : (0 : ℤ) ≤ acc * 9 := mul_nonneg h (by norm_num)
      have hstep : acc ≤ acc * 10 + ((c.toNat : ℤ) - 48) := by linarith
      exact hstep.trans (parseDigitsPlain_le cs _ (le_trans h hstep))
    · exact le_refl _

lemma wrap32_eq_self (x : ℤ) (h1 : -(2 ^ 31) ≤ x) (h2 : x < 2 ^ 31) :
    wrap32 x = x := by
  unfold wrap32
  rw [Int.emod_eq_of_lt (by linarith) (by norm_num; linarith)]
  ring

lemma wrap16_eq_self (x : ℤ) (h1 : -(2 ^ 15) ≤ x) (h2 : x < 2 ^ 15) :
    wrap16 x = x := by
  unfold wrap16
  rw [Int.emod_eq_of_lt (by linarith) (by norm_num; linarith)]
  ring

lemma parseDigits_eq_plain :
    ∀ (cs : List Char) (acc : ℤ), 0 ≤ acc → parseDigitsPlain cs acc ≤ 32767 →
      parseDigits cs acc = parseDigitsPlain cs acc
  | [], _, _, _ => rfl
  | c :: cs, acc, h, hb => by
    unfold parseDigits parseDigitsPlain
    split_ifs with hd
    · have hc : (48 : ℕ) ≤ c.toNat ∧ c.toNat ≤ 57 := by
        simpa [isDigitCh] using hd
      have h48 : (48 : ℤ) ≤ (c.toNat : ℤ) := by exact_mod_cast hc.1
      have h10 : (0 : ℤ) ≤ acc * 10 := mul_nonneg h (by norm_num)
      have hacc' : 0 ≤ acc * 10 + ((c.toNat : ℤ) - 48) := by linarith
      have hb' : parseDigitsPlain cs (acc * 10 + ((c.toNat : ℤ) - 48)) ≤ 32767 := by
        have e : parseDigitsPlain (c :: cs) acc =
            if isDigitCh c then parseDigitsPlain cs (acc * 10 + ((c.toNat : ℤ) - 48))
            else acc := rfl
        rw [e, if_pos hd] at hb
        exact hb
      have hsmall : acc * 10 + ((c.toNat : ℤ) - 48) ≤ 32767 :=
        le_trans (parseDigitsPlain_le cs _ hacc') hb'
      rw [wrap32_eq_self _ (by linarith) (by linarith)]
      exact parseDigits_eq_plain cs _ hacc' hb'
    · rfl

lemma skipSpaces_of_digits (cs : List Char) (h : ∀ c ∈ cs, isDigitCh c = true) :
    skipSpaces cs = cs := by
  cases cs with
  | nil => rfl
  | cons c cs' =>
    unfold skipSpaces
    rw [if_neg]
    have hc : (48 : ℕ) ≤ c.toNat ∧ c.toNat ≤ 57 := by
      simpa [isDigitCh] using h c (List.mem_cons_self c cs')
    simp [isSpaceCh]
    omega

lemma stringToInt_eq_plain_of_digits (cs : List Char)
    (h : ∀ c ∈ cs, isDigitCh c = true) (hb : parseDigitsPlain cs 0 ≤ 32767) :
    stringToInt cs = parseDigitsPlain cs 0 := by
  unfold stringToInt
  rw [skipSpaces_of_digits cs h]
  cases cs with
  | nil => rfl
  | cons c cs' =>
    have hc : (48 : ℕ) ≤ c.toNat ∧ c.toNat ≤ 57 := by
      simpa [isDigitCh] using h c (List.mem_cons_self c cs')
    have hmin : ¬c = '-' := by
      intro he
      rw [he] at hc
      simp at hc
    have hplus : ¬c = '+' := by
      intro he
      rw [he] at hc
      simp at hc
    show (if c = '-' then wrap32 (-(parseDigits cs' 0))
        else if c = '+' then parseDigits cs' 0 else parseDigits (c :: cs') 0) =
      parseDigitsPlain (c :: cs') 0
    rw [if_neg hmin, if_neg hplus]
    exact parseDigits_eq_plain (c :: cs') 0 (le_refl 0) hb

/-- C9 amended: the value stored as `daqDelay` by the SetDaqDelay command is
the 16-bit narrowing of the 32-bit `atol` of the ASCII payload read up to the
sentinel `'x'`; it equals the payload's numeric value and is non-negative
whenever the payload consists of decimal digits AND that value fits the
16-bit `int` (is at most 32767). A leading `'-'` stores a negative value, and
a digit payload above 32767 wraps negative in the narrowing (see the
counterexample). -/
theorem setDaqDelay_digits_nonneg (payload : List Char) (raw : ℤ) (now : ℕ)
    (w : Bool) (s : DevState) (h : ∀ c ∈ payload, isDigitCh c = true)
    (hb : parseDigitsPlain payload 0 ≤ 32767) :
    (handleCommand READ_DAQ_DELAY payload raw now w s).1.daqDelay =
        parseDigitsPlain payload 0 ∧
      0 ≤ (handleCommand READ_DAQ_DELAY payload raw now w s).1.daqDelay := by
  have e : (handleCommand READ_DAQ_DELAY payload raw now w s).1.daqDelay =
      wrap16 (stringToInt payload) := by
    unfold handleCommand
    norm_num [READ_DAQ_DELAY, VOLTAGE_REQUEST, ON_REQUEST, STREAM]
  have h0 : 0 ≤ parseDigitsPlain payload 0 := parseDigitsPlain_le payload 0 (le_refl 0)
  rw [e, stringToInt_eq_plain_of_digits payload h hb,
    wrap16_eq_self _ (by linarith) (by norm_num; linarith)]
  exact ⟨rfl, h0⟩

/-- Witness for C9's amended claim at the payload "250", whose value 250 fits
the 16-bit `int`. -/
theorem setDaqDelay_digits_nonneg_witness :
    (handleCommand READ_DAQ_DELAY ['2', '5', '0'] 0 0 true
          ⟨ON_REQUEST, 100, absorbanceBlankInit, 0⟩).1.daqDelay =
        parseDigitsPlain ['2', '5', '0'] 0 ∧
      0 ≤ (handleCommand READ_DAQ_DELAY ['2', '5', '0'] 0 0 true
          ⟨ON_REQUEST, 100, absorbanceBlankInit, 0⟩).1.daqDelay :=
  setDaqDelay_digits_nonneg ['2', '5', '0'] 0 0 true _ (by decide) (by decide)

end Spectro

